import Mathlib

/-!
Shallow embedding of `src/ragas/testset/generator.py`: the generation
orchestrator (`TestsetGenerator.generate`), the single-row path
(`generate_single`), strategy initialization (`init_evolution`), and the
dataset wrapper (`TestDataset`).

Modelling conventions:
* Python floats for strategy weights are modelled as exact rationals (ℚ);
  `round` is Python's round-half-to-even on the exact value.
* A strategy ("evolution") is identified by its class name (a `String`);
  the weighted mapping `distributions` is an insertion-ordered association
  list, matching Python dict iteration order.
* The sampled node-contexts `current_nodes` (from
  `docstore.get_random_nodes(k=test_size)`) are modelled by their indices:
  a task assignment records which index it consumes.
* `evolution.evolve` and the NaN sentinel are external collaborators: a
  task's outcome is an opaque value of a result type `R` together with a
  predicate `is_nan : R → Bool`, both parameters of the model.
* `random.choices(list(distributions), k)` is modelled by a draw function
  `Nat → String` giving the name drawn at each backfill position.
-/

/-- Python's `round` (round half to even) on an exact rational. -/
def pyRound (q : ℚ) : ℤ :=
  let n : ℤ := ⌊q⌋
  let frac : ℚ := q - (n : ℚ)
  if frac < 1/2 then n
  else if 1/2 < frac then n + 1
  else if n % 2 = 0 then n else n + 1

/-- `range(round(q))`: the number of loop iterations Python performs. -/
def pyRoundNat (q : ℚ) : ℕ := (pyRound q).toNat

/-- Modelled from the spec: `check_if_sum_is_close` lives in `ragas.utils`,
which is not part of the source tree; the spec's Distribution Validator
contract is "verify `|sum(weights) - 1.0| < 1e-3`" (the call site passes
`num_places = 3`, hence tolerance `1 / 10 ^ 3`). -/
def check_if_sum_is_close (values : List ℚ) (close_to : ℚ) (num_places : ℕ) : Bool :=
  |values.sum - close_to| < 1 / 10 ^ num_places

/-- One task assignment submitted to an executor:
`execs[-1].submit(evolution.evolve, current_nodes[i], name=f"{cls}-{i}")`. -/
structure GenTask where
  evolution : String
  nodeIdx : ℕ
  name : String
deriving Repr, DecidableEq

/-- The task name `f"{evolution.__class__.__name__}-{i}"`. -/
def mkTask (ename : String) (i : ℕ) : GenTask :=
  { evolution := ename, nodeIdx := i, name := ename ++ "-" ++ toString i }

/-- `max_parallel_process = 10` in `generate`. -/
def maxParallelProcess : ℕ := 10

/-- The mutable scheduling state of `generate`: the Python list `execs`
is `done ++ [cur]` (only its last element ever receives submissions),
together with the counter `total_evolutions`. -/
structure SchedState where
  done : List (List GenTask)
  cur : List GenTask
  total : ℕ
deriving Repr, DecidableEq

/-- The full executor list `execs` (the current executor is `execs[-1]`). -/
def SchedState.execs (s : SchedState) : List (List GenTask) :=
  s.done ++ [s.cur]

/-- One loop body step of `generate`: `execs[-1].submit(...)` followed by
`if total_evolutions % max_parallel_process == max_parallel_process - 1:
execs.append(Executor(...))`, then `total_evolutions += 1`. -/
def SchedState.submit (s : SchedState) (tk : GenTask) : SchedState :=
  if s.total % maxParallelProcess = maxParallelProcess - 1 then
    { done := s.done ++ [s.cur ++ [tk]], cur := [], total := s.total + 1 }
  else
    { done := s.done, cur := s.cur ++ [tk], total := s.total + 1 }

/-- The inner loop `for i in range(round(probability * test_size))` of one
strategy: the submitted node-context index is the per-strategy loop
variable `i` (the source passes `current_nodes[i]`). -/
def submitStrategy (ename : String) (count : ℕ) (s : SchedState) : SchedState :=
  (List.range count).foldl (fun st i => st.submit (mkTask ename i)) s

/-- The per-strategy iteration counts `round(probability * test_size)`. -/
def roundedCounts (dist : List (String × ℚ)) (N : ℕ) : List ℕ :=
  dist.map (fun ep => pyRoundNat (ep.2 * (N : ℚ)))

/-- The outer loop `for evolution, probability in distributions.items()`. -/
def phase1 (dist : List (String × ℚ)) (N : ℕ) (s : SchedState) : SchedState :=
  dist.foldl (fun st ep => submitStrategy ep.1 (pyRoundNat (ep.2 * (N : ℚ))) st) s

/-- The backfill loop `for evolution in filler_evolutions`: each filler
consumes `current_nodes[total_evolutions]`, the global cursor. -/
def backfill (fillers : List String) (s : SchedState) : SchedState :=
  fillers.foldl (fun st ename => st.submit (mkTask ename st.total)) s

/-- The whole scheduling phase of `generate`: phase 1 over the
distributions, then, when `total_evolutions <= test_size`, backfill with
`choices(list(distributions), k=test_size - total_evolutions)` (the draws
are modelled by `draw`). -/
def schedule (dist : List (String × ℚ)) (N : ℕ) (draw : ℕ → String) : SchedState :=
  let s1 := phase1 dist N { done := [], cur := [], total := 0 }
  if s1.total ≤ N then
    backfill ((List.range (N - s1.total)).map draw) s1
  else s1

/-- Errors `generate` can raise: the `ValueError` for a bad distribution
and `ExceptionInRunner` for an empty result list. -/
inductive GenError where
  | configError
  | exceptionInRunner
deriving Repr, DecidableEq

/-- The distribution validation at the top of `generate`, before any node
is sampled and before any task assignment is created. -/
def scheduleChecked (dist : List (String × ℚ)) (N : ℕ) (draw : ℕ → String) :
    Except GenError SchedState :=
  if check_if_sum_is_close (dist.map Prod.snd) 1 3 then
    Except.ok (schedule dist N draw)
  else Except.error GenError.configError

/-- `TestDataset` from the source: a list of result rows. -/
structure TestDataset (R : Type) where
  test_data : List R
deriving Repr, DecidableEq

/-- `generate`: validate the distribution, schedule all task assignments,
collect every executor's results (modelled from the spec: an execution
unit reports one outcome per registered task, in registration order),
raise `ExceptionInRunner` if the collected list is empty, and only then
filter out NaN sentinel rows. `evolveRow tk` is the outcome of task `tk`
and `is_nan` recognises the invalid sentinel. -/
def generate {R : Type} (dist : List (String × ℚ)) (test_size : ℕ)
    (draw : ℕ → String) (evolveRow : GenTask → R) (is_nan : R → Bool) :
    Except GenError (TestDataset R) :=
  match scheduleChecked dist test_size draw with
  | Except.error e => Except.error e
  | Except.ok s =>
      let total_test_data_rows := s.execs.flatMap (fun ex => ex.map evolveRow)
      if total_test_data_rows.isEmpty then Except.error GenError.exceptionInRunner
      else Except.ok { test_data := total_test_data_rows.filter (fun r => !(is_nan r)) }

/-- Errors `generate_single` can raise: the failed
`assert node_index < len(self.docstore.nodes)` and a propagated exception
from `evolution.evolve`. -/
inductive SingleError where
  | assertionError
  | evolveError
deriving Repr, DecidableEq

/-- The tail of `generate_single` once the node is chosen: await
`evolution.evolve`, re-raise any exception, then return the wrapped row
when it is not NaN and `None` otherwise. -/
def evolveStep {Node R : Type} (evolve : Node → Except Unit R) (is_nan : R → Bool)
    (node : Node) : Except SingleError (Option R) :=
  match evolve node with
  | Except.error _ => Except.error SingleError.evolveError
  | Except.ok row => if is_nan row then Except.ok none else Except.ok (some row)

/-- `generate_single`: with an explicit `node_index`, assert
`node_index < len(self.docstore.nodes)` and take that node; otherwise use
a freshly sampled node (`get_random_nodes(k=1, ...)`, an external
collaborator, modelled by `randomNode`); then run exactly one evolve.
The source wraps the produced row in `TestDataset(test_data=row)`; the
model returns the row itself as the payload. -/
def generate_single {Node R : Type} (nodes : List Node) (node_index : Option ℕ)
    (randomNode : Node) (evolve : Node → Except Unit R) (is_nan : R → Bool) :
    Except SingleError (Option R) :=
  match node_index with
  | some idx =>
      if h : idx < nodes.length then evolveStep evolve is_nan (nodes.get ⟨idx, h⟩)
      else Except.error SingleError.assertionError
  | none => evolveStep evolve is_nan randomNode

/-- A strategy ("evolution") as `init_evolution` sees it: its class kind
(`ComplexEvolution` or not) and its five lazily-configured collaborator
slots. Collaborators are modelled by numeric identities; a filter built
as `QuestionFilter(llm=self.critic_llm)` is recorded as the critic
identity it wraps. -/
structure Evolution where
  className : String
  isComplex : Bool
  generator_llm : Option ℕ
  docstore : Option ℕ
  question_filter : Option ℕ
  node_filter : Option ℕ
  evolution_filter : Option ℕ
deriving Repr, DecidableEq

/-- The `TestsetGenerator` fields `init_evolution` reads. -/
structure TestsetGenerator where
  generator_llm : ℕ
  critic_llm : ℕ
  embeddings : ℕ
  docstore : ℕ
deriving Repr, DecidableEq

/-- `init_evolution`: every collaborator fill, including the filters, is
nested inside `if evolution.generator_llm is None`; the evolution filter
is additionally guarded by `isinstance(evolution, ComplexEvolution)`. -/
def init_evolution (g : TestsetGenerator) (e : Evolution) : Evolution :=
  if e.generator_llm = none then
    { e with
      generator_llm := some g.generator_llm
      docstore := if e.docstore = none then some g.docstore else e.docstore
      question_filter :=
        if e.question_filter = none then some g.critic_llm else e.question_filter
      node_filter :=
        if e.node_filter = none then some g.critic_llm else e.node_filter
      evolution_filter :=
        if e.isComplex then
          if e.evolution_filter = none then some g.critic_llm else e.evolution_filter
        else e.evolution_filter }
  else e

/-- Python's `d[k] = v` on an insertion-ordered dict modelled as an
association list: overwrite in place when the key exists, else append. -/
def dictSetItem {V : Type} (d : List (String × V)) (k : String) (v : V) :
    List (String × V) :=
  if d.any (fun p => p.1 == k) then
    d.map (fun p => if p.1 == k then (p.1, v) else p)
  else d ++ [(k, v)]

/-- `TestDataset._to_records`: for each stored row, `dict(data)` (modelled
by `rowDict`) with `data_dict["episode_done"] = True` (`vTrue` is the
value `True` in the record value type). -/
def TestDataset.to_records {R V : Type} (ds : TestDataset R)
    (rowDict : R → List (String × V)) (vTrue : V) : List (List (String × V)) :=
  ds.test_data.map (fun data => dictSetItem (rowDict data) "episode_done" vTrue)

/-- `TestDataset.to_pandas` builds `pd.DataFrame.from_records` of the
records; the frame's record-level view is the record list itself (the
DataFrame constructor is an external collaborator that preserves
records). -/
def TestDataset.to_pandas {R V : Type} (ds : TestDataset R)
    (rowDict : R → List (String × V)) (vTrue : V) : List (List (String × V)) :=
  ds.to_records rowDict vTrue

/-- `TestDataset.to_dataset` builds `Dataset.from_list` of the records;
its record-level view is likewise the record list itself. -/
def TestDataset.to_dataset {R V : Type} (ds : TestDataset R)
    (rowDict : R → List (String × V)) (vTrue : V) : List (List (String × V)) :=
  ds.to_records rowDict vTrue

/-- The expected flat task list of phase 1: for each strategy, tasks over
its own local index range. -/
def phase1Tasks (dist : List (String × ℚ)) (N : ℕ) : List GenTask :=
  dist.flatMap (fun ep => (List.range (pyRoundNat (ep.2 * (N : ℚ)))).map (mkTask ep.1))

/-- The expected flat task list of the backfill loop, started at global
cursor value `t`. -/
def backfillTasks : List String → ℕ → List GenTask
  | [], _ => []
  | en :: rest, t => mkTask en t :: backfillTasks rest (t + 1)

lemma SchedState.submit_total (s : SchedState) (tk : GenTask) :
    (s.submit tk).total = s.total + 1 := by
  unfold SchedState.submit
  split <;> rfl

lemma SchedState.submit_execs_flatten (s : SchedState) (tk : GenTask) :
    (s.submit tk).execs.flatten = s.execs.flatten ++ [tk] := by
  unfold SchedState.submit SchedState.execs
  split <;> simp

/-- Structural invariant of the scheduling loop: every executor already
rotated out holds exactly `max_parallel_process` tasks, the current one
holds `total % max_parallel_process`, and the flattened submission list
has `total_evolutions` entries. -/
def SchedInv (s : SchedState) : Prop :=
  (∀ ex ∈ s.done, ex.length = maxParallelProcess) ∧
  s.cur.length = s.total % maxParallelProcess ∧
  s.done.length = s.total / maxParallelProcess ∧
  s.execs.flatten.length = s.total

lemma schedInv_submit (s : SchedState) (tk : GenTask) (h : SchedInv s) :
    SchedInv (s.submit tk) := by
  obtain ⟨hdone, hcur, hlen, hflat⟩ := h
  have h4 : (s.submit tk).execs.flatten.length = (s.submit tk).total := by
    rw [SchedState.submit_execs_flatten, SchedState.submit_total,
      List.length_append, hflat]
    rfl
  unfold SchedInv
  refine ⟨?_, ?_, ?_, h4⟩ <;> unfold SchedState.submit <;>
    unfold maxParallelProcess at * <;>
    by_cases h9 : s.total % 10 = 10 - 1
  · rw [if_pos h9]
    intro ex hex
    rcases List.mem_append.mp hex with hx | hx
    · exact hdone ex hx
    · have hx' : ex = s.cur ++ [tk] := by simpa using hx
      subst hx'
      simp [hcur]
      omega
  · rw [if_neg h9]
    exact hdone
  · rw [if_pos h9]
    simp
    omega
  · rw [if_neg h9]
    simp [hcur]
    omega
  · rw [if_pos h9]
    simp [hlen]
    omega
  · rw [if_neg h9]
    simp [hlen]
    omega

lemma foldl_preserve {α : Type} (P : SchedState → Prop) (g : SchedState → α → SchedState)
    (hg : ∀ st a, P st → P (g st a)) (l : List α) (s : SchedState) (h : P s) :
    P (l.foldl g s) := by
  induction l generalizing s with
  | nil => exact h
  | cons a l ih => exact ih _ (hg s a h)

lemma schedule_preserve (P : SchedState → Prop)
    (hsub : ∀ s tk, P s → P (s.submit tk))
    (h0 : P { done := [], cur := [], total := 0 })
    (dist : List (String × ℚ)) (N : ℕ) (draw : ℕ → String) :
    P (schedule dist N draw) := by
  have hstrat : ∀ (en : String) (c : ℕ) (s : SchedState), P s → P (submitStrategy en c s) := by
    intro en c s hs
    unfold submitStrategy
    exact foldl_preserve P _ (fun st i h => hsub st _ h) _ s hs
  have hph : ∀ s, P s → P (phase1 dist N s) := by
    intro s hs
    unfold phase1
    exact foldl_preserve P _ (fun st ep h => hstrat ep.1 _ st h) dist s hs
  have hbf : ∀ (fs : List String) (s : SchedState), P s → P (backfill fs s) := by
    intro fs s hs
    unfold backfill
    exact foldl_preserve P _ (fun st en h => hsub st _ h) fs s hs
  simp only [schedule]
  split
  · exact hbf _ _ (hph _ h0)
  · exact hph _ h0

lemma schedule_schedInv (dist : List (String × ℚ)) (N : ℕ) (draw : ℕ → String) :
    SchedInv (schedule dist N draw) :=
  schedule_preserve SchedInv schedInv_submit
    (by refine ⟨?_, rfl, rfl, rfl⟩; intro ex hex; simp at hex) dist N draw

lemma submitStrategy_execs_flatten (en : String) (c : ℕ) (s : SchedState) :
    (submitStrategy en c s).execs.flatten
      = s.execs.flatten ++ (List.range c).map (mkTask en) := by
  induction c with
  | zero => simp [submitStrategy]
  | succ n ih =>
      unfold submitStrategy at *
      rw [List.range_succ, List.foldl_append, List.foldl_cons, List.foldl_nil,
        SchedState.submit_execs_flatten, ih, List.map_append]
      simp

lemma submitStrategy_total (en : String) (c : ℕ) (s : SchedState) :
    (submitStrategy en c s).total = s.total + c := by
  induction c with
  | zero => simp [submitStrategy]
  | succ n ih =>
      unfold submitStrategy at *
      rw [List.range_succ, List.foldl_append, List.foldl_cons, List.foldl_nil,
        SchedState.submit_total, ih]
      omega

lemma phase1_execs_flatten (dist : List (String × ℚ)) (N : ℕ) (s : SchedState) :
    (phase1 dist N s).execs.flatten = s.execs.flatten ++ phase1Tasks dist N := by
  induction dist generalizing s with
  | nil => simp [phase1, phase1Tasks]
  | cons ep rest ih =>
      unfold phase1 phase1Tasks at *
      rw [List.foldl_cons, List.flatMap_cons, ih, submitStrategy_execs_flatten,
        List.append_assoc]

lemma phase1_total (dist : List (String × ℚ)) (N : ℕ) (s : SchedState) :
    (phase1 dist N s).total = s.total + (roundedCounts dist N).sum := by
  induction dist generalizing s with
  | nil => simp [phase1, roundedCounts]
  | cons ep rest ih =>
      unfold phase1 roundedCounts at *
      rw [List.foldl_cons, List.map_cons, List.sum_cons, ih, submitStrategy_total]
      omega

lemma backfill_execs_flatten (fillers : List String) (s : SchedState) :
    (backfill fillers s).execs.flatten
      = s.execs.flatten ++ backfillTasks fillers s.total := by
  induction fillers generalizing s with
  | nil => simp [backfill, backfillTasks]
  | cons en rest ih =>
      unfold backfill at *
      rw [List.foldl_cons, ih, SchedState.submit_execs_flatten,
        SchedState.submit_total]
      simp [backfillTasks]

lemma backfill_total (fillers : List String) (s : SchedState) :
    (backfill fillers s).total = s.total + fillers.length := by
  induction fillers generalizing s with
  | nil => simp [backfill]
  | cons en rest ih =>
      unfold backfill at *
      rw [List.foldl_cons, ih, SchedState.submit_total]
      simp
      omega

lemma schedule_execs_flatten (dist : List (String × ℚ)) (N : ℕ) (draw : ℕ → String) :
    (schedule dist N draw).execs.flatten =
      phase1Tasks dist N ++
        (if (roundedCounts dist N).sum ≤ N then
          backfillTasks ((List.range (N - (roundedCounts dist N).sum)).map draw)
            ((roundedCounts dist N).sum)
        else []) := by
  have htot : (phase1 dist N { done := [], cur := [], total := 0 }).total
      = (roundedCounts dist N).sum := by
    rw [phase1_total]
    simp
  have hflat : (phase1 dist N { done := [], cur := [], total := 0 }).execs.flatten
      = phase1Tasks dist N := by
    rw [phase1_execs_flatten]
    rfl
  simp only [schedule, htot]
  by_cases hc : (roundedCounts dist N).sum ≤ N
  · rw [if_pos hc, if_pos hc, backfill_execs_flatten, hflat, htot]
  · rw [if_neg hc, if_neg hc, hflat, List.append_nil]

lemma schedule_total_eq (dist : List (String × ℚ)) (N : ℕ) (draw : ℕ → String) :
    (schedule dist N draw).total =
      if (roundedCounts dist N).sum ≤ N then N else (roundedCounts dist N).sum := by
  have htot : (phase1 dist N { done := [], cur := [], total := 0 }).total
      = (roundedCounts dist N).sum := by
    rw [phase1_total]
    simp
  simp only [schedule, htot]
  by_cases hc : (roundedCounts dist N).sum ≤ N
  · rw [if_pos hc, if_pos hc, backfill_total, htot]
    simp
    omega
  · rw [if_neg hc, if_neg hc, htot]

lemma phase1Tasks_map_nodeIdx (dist : List (String × ℚ)) (N : ℕ) :
    (phase1Tasks dist N).map GenTask.nodeIdx
      = dist.flatMap (fun ep => List.range (pyRoundNat (ep.2 * (N : ℚ)))) := by
  induction dist with
  | nil => rfl
  | cons ep rest ih =>
      unfold phase1Tasks at *
      rw [List.flatMap_cons, List.flatMap_cons, List.map_append, ih, List.map_map]
      congr 1
      have hcomp : (GenTask.nodeIdx ∘ mkTask ep.1) = id := funext fun i => rfl
      rw [hcomp, List.map_id]

lemma backfillTasks_map_nodeIdx (fillers : List String) (t : ℕ) :
    (backfillTasks fillers t).map GenTask.nodeIdx = List.range' t fillers.length := by
  induction fillers generalizing t with
  | nil => rfl
  | cons en rest ih =>
      simp only [backfillTasks, List.map_cons, ih, List.length_cons]
      rfl

lemma backfillTasks_length (fillers : List String) (t : ℕ) :
    (backfillTasks fillers t).length = fillers.length := by
  induction fillers generalizing t with
  | nil => rfl
  | cons en rest ih => simp [backfillTasks, ih]

lemma flatMap_map_eq {R : Type} (execs : List (List GenTask)) (f : GenTask → R) :
    execs.flatMap (fun ex => ex.map f) = execs.flatten.map f := by
  induction execs with
  | nil => rfl
  | cons ex rest ih => simp [ih]

lemma generate_invalid {R : Type} (dist : List (String × ℚ)) (N : ℕ)
    (draw : ℕ → String) (ev : GenTask → R) (nan : R → Bool)
    (h : check_if_sum_is_close (dist.map Prod.snd) 1 3 = false) :
    generate dist N draw ev nan = Except.error GenError.configError := by
  unfold generate scheduleChecked
  rw [if_neg (by simp [h])]

lemma generate_valid {R : Type} (dist : List (String × ℚ)) (N : ℕ)
    (draw : ℕ → String) (ev : GenTask → R) (nan : R → Bool)
    (h : check_if_sum_is_close (dist.map Prod.snd) 1 3 = true) :
    generate dist N draw ev nan =
      if ((schedule dist N draw).execs.flatten.map ev).isEmpty then
        Except.error GenError.exceptionInRunner
      else
        Except.ok { test_data :=
          ((schedule dist N draw).execs.flatten.map ev).filter (fun r => !(nan r)) } := by
  unfold generate scheduleChecked
  rw [if_pos (by simp [h])]
  simp only [flatMap_map_eq]

/-- Reading key `k` of a record (Python `rec[k]`), on the association-list
record representation. -/
def lookupKey {V : Type} : List (String × V) → String → Option V
  | [], _ => none
  | p :: rest, k => if p.1 = k then some p.2 else lookupKey rest k

lemma lookup_map_overwrite {V : Type} (k : String) (v : V) (d : List (String × V))
    (h : d.any (fun p => p.1 == k) = true) :
    lookupKey (d.map (fun p => if p.1 == k then (p.1, v) else p)) k = some v := by
  induction d with
  | nil => simp at h
  | cons p rest ih =>
      by_cases hp : (p.1 == k) = true
      · have hpk : p.1 = k := beq_iff_eq.mp hp
        rw [List.map_cons, if_pos hp]
        unfold lookupKey
        rw [if_pos hpk]
      · rw [List.map_cons, if_neg hp]
        unfold lookupKey
        rw [if_neg (by simpa using hp)]
        apply ih
        simpa [hp] using h

lemma lookup_append_self {V : Type} (k : String) (v : V) (d : List (String × V))
    (h : d.any (fun p => p.1 == k) = false) :
    lookupKey (d ++ [(k, v)]) k = some v := by
  induction d with
  | nil => simp [lookupKey]
  | cons p rest ih =>
      simp only [List.any_cons, Bool.or_eq_false_iff] at h
      rw [List.cons_append]
      unfold lookupKey
      rw [if_neg (by simpa using h.1)]
      exact ih (by simpa using h.2)

lemma dictSetItem_lookup {V : Type} (d : List (String × V)) (k : String) (v : V) :
    lookupKey (dictSetItem d k v) k = some v := by
  unfold dictSetItem
  by_cases hany : d.any (fun p => p.1 == k) = true
  · rw [if_pos hany]
    exact lookup_map_overwrite k v d hany
  · have hf : d.any (fun p => p.1 == k) = false := by
      revert hany
      cases d.any (fun p => p.1 == k) <;> simp
    rw [if_neg (by simp [hf])]
    exact lookup_append_self k v d hf

lemma zip_map_all {α β : Type} [DecidableEq β] (f : α → β) (l : List α) :
    ((l.map f).zip l).all (fun pr => decide (pr.1 = f pr.2)) = true := by
  induction l with
  | nil => rfl
  | cons a l ih => simp [ih]

lemma pyRoundNat_eq (q : ℚ) (z : ℤ) (hz : pyRound q = z) : pyRoundNat q = z.toNat := by
  rw [pyRoundNat, hz]

lemma check_true_of (values : List ℚ) (c : ℚ) (n : ℕ)
    (h : |values.sum - c| < 1 / 10 ^ n) : check_if_sum_is_close values c n = true := by
  unfold check_if_sum_is_close
  exact decide_eq_true h

lemma check_false_of (values : List ℚ) (c : ℚ) (n : ℕ)
    (h : ¬ |values.sum - c| < 1 / 10 ^ n) : check_if_sum_is_close values c n = false := by
  unfold check_if_sum_is_close
  exact decide_eq_false h

lemma flatMap_of_map {A B C : Type} (l : List A) (f : A → B) (g : B → List C) :
    (l.map f).flatMap g = l.flatMap (fun a => g (f a)) := by
  induction l with
  | nil => rfl
  | cons a l ih => simp [ih]

/-- The phase-1 task list determined by the strategy names and their
rounded counts. -/
def plannedTasks (names : List String) (counts : List ℕ) : List GenTask :=
  (names.zip counts).flatMap (fun p => (List.range p.2).map (mkTask p.1))

lemma phase1Tasks_eq_planned (dist : List (String × ℚ)) (N : ℕ) :
    phase1Tasks dist N = plannedTasks (dist.map Prod.fst) (roundedCounts dist N) := by
  induction dist with
  | nil => rfl
  | cons ep rest ih =>
      unfold phase1Tasks plannedTasks roundedCounts at *
      simp only [List.map_cons, List.zip_cons_cons, List.flatMap_cons]
      rw [ih]

lemma schedule_flatten_counts (dist : List (String × ℚ)) (N : ℕ) (draw : ℕ → String)
    (counts : List ℕ) (h : roundedCounts dist N = counts) :
    (schedule dist N draw).execs.flatten =
      plannedTasks (dist.map Prod.fst) counts ++
        (if counts.sum ≤ N then
          backfillTasks ((List.range (N - counts.sum)).map draw) counts.sum
        else []) := by
  rw [schedule_execs_flatten, phase1Tasks_eq_planned, h]

lemma schedule_total_counts (dist : List (String × ℚ)) (N : ℕ) (draw : ℕ → String)
    (counts : List ℕ) (h : roundedCounts dist N = counts) :
    (schedule dist N draw).total = if counts.sum ≤ N then N else counts.sum := by
  rw [schedule_total_eq, h]

lemma schedule_nodeIdx_counts (dist : List (String × ℚ)) (N : ℕ) (draw : ℕ → String)
    (counts : List ℕ) (h : roundedCounts dist N = counts) :
    (schedule dist N draw).execs.flatten.map GenTask.nodeIdx =
      counts.flatMap List.range ++
        (if counts.sum ≤ N then List.range' counts.sum (N - counts.sum) else []) := by
  rw [schedule_execs_flatten, List.map_append, phase1Tasks_map_nodeIdx, ← h]
  congr 1
  · unfold roundedCounts
    rw [flatMap_of_map]
  · by_cases hc : (roundedCounts dist N).sum ≤ N
    · rw [if_pos hc, if_pos hc, backfillTasks_map_nodeIdx, List.length_map,
        List.length_range]
    · rw [if_neg hc, if_neg hc]
      rfl

/-- C2 (amended): the scheduler does not run a single global cursor
through phase 1 — each strategy consumes node-contexts starting again
from local index 0 (`current_nodes[i]` with the per-strategy loop index),
so an index can be assigned to several strategies' tasks; only the
backfill step consumes node-contexts through the global cursor, indices
`t0 .. N-1` each exactly once (where `t0` is the sum of the rounded
per-strategy counts), and no backfill occurs when `t0 > N`. -/
theorem schedule_per_strategy_node_consumption (dist : List (String × ℚ)) (N : ℕ)
    (draw : ℕ → String) :
    (schedule dist N draw).execs.flatten.map GenTask.nodeIdx =
      dist.flatMap (fun ep => List.range (pyRoundNat (ep.2 * (N : ℚ)))) ++
        (if (roundedCounts dist N).sum ≤ N then
          List.range' ((roundedCounts dist N).sum) (N - (roundedCounts dist N).sum)
        else []) := by
  rw [schedule_execs_flatten, List.map_append, phase1Tasks_map_nodeIdx]
  congr 1
  by_cases hc : (roundedCounts dist N).sum ≤ N
  · rw [if_pos hc, if_pos hc, backfillTasks_map_nodeIdx, List.length_map,
      List.length_range]
  · rw [if_neg hc, if_neg hc]
    rfl

/-- C2 (counterexample): with weights `{A: 0.5, B: 0.5}` and `N = 2`,
the two task assignments consume node-context index 0 twice (and index 1
never), refuting "every sampled node-context index is assigned to at most
one task assignment and is never reused". -/
theorem schedule_node_reuse_counterexample :
    (schedule [("A", (1 : ℚ)/2), ("B", (1 : ℚ)/2)] 2
      (fun _ => "A")).execs.flatten.map GenTask.nodeIdx = [0, 0] := by
  have h1 : pyRoundNat ((1 : ℚ)/2 * ((2 : ℕ) : ℚ)) = 1 := by
    rw [pyRoundNat_eq _ 1 (by norm_num [pyRound])]
    rfl
  have hrc : roundedCounts [("A", (1 : ℚ)/2), ("B", (1 : ℚ)/2)] 2 = [1, 1] := by
    show [pyRoundNat ((1 : ℚ)/2 * ((2 : ℕ) : ℚ)),
      pyRoundNat ((1 : ℚ)/2 * ((2 : ℕ) : ℚ))] = [1, 1]
    rw [h1]
  rw [schedule_nodeIdx_counts _ _ _ _ hrc]
  decide

/-- C3 (amended): the backfill branch runs exactly when the rounded
per-strategy counts sum `t0` is at most `N` (drawing `N - t0` fillers,
zero of them when `t0 = N`), and then the total number of task
assignments is exactly `N`; but when the rounded counts overshoot
(`t0 > N`) no backfill and no capping happens and the total is `t0 > N`. -/
theorem schedule_backfill_total (dist : List (String × ℚ)) (N : ℕ) (draw : ℕ → String) :
    (schedule dist N draw).total =
      if (roundedCounts dist N).sum ≤ N then N else (roundedCounts dist N).sum :=
  schedule_total_eq dist N draw

/-- C3 (counterexample): with weights `{A: 0.25, B: 0.25, C: 0.5}` and
`N = 6`, Python rounds `0.25 * 6 = 1.5` to 2 (half to even), so phase 1
creates `2 + 2 + 3 = 7 > 6` assignments and the backfill/cap never runs:
the total is 7, not `N = 6`. -/
theorem schedule_overshoot_counterexample :
    (schedule [("A", (1 : ℚ)/4), ("B", (1 : ℚ)/4), ("C", (1 : ℚ)/2)] 6
      (fun _ => "A")).total = 7 := by
  have h14 : pyRoundNat ((1 : ℚ)/4 * ((6 : ℕ) : ℚ)) = 2 := by
    rw [pyRoundNat_eq _ 2 (by norm_num [pyRound])]
    rfl
  have h12 : pyRoundNat ((1 : ℚ)/2 * ((6 : ℕ) : ℚ)) = 3 := by
    rw [pyRoundNat_eq _ 3 (by norm_num [pyRound])]
    rfl
  have hrc : roundedCounts [("A", (1 : ℚ)/4), ("B", (1 : ℚ)/4), ("C", (1 : ℚ)/2)] 6
      = [2, 2, 3] := by
    show [pyRoundNat ((1 : ℚ)/4 * ((6 : ℕ) : ℚ)),
      pyRoundNat ((1 : ℚ)/4 * ((6 : ℕ) : ℚ)),
      pyRoundNat ((1 : ℚ)/2 * ((6 : ℕ) : ℚ))] = [2, 2, 3]
    rw [h14, h12]
  rw [schedule_total_counts _ _ _ _ hrc]
  decide

/-- C5 (amended): every execution unit has at most
`C = max_parallel_process = 10` tasks registered, and the assignments are
partitioned into consecutive batches of size `C`; but the number of units
created is `total / C + 1` (one executor exists before any submission and
a fresh one is appended after every C-th submission), which exceeds
`ceil(total / C)` exactly when `C` divides the total (including an empty
trailing unit, e.g. one unit for zero tasks, two units for ten tasks). -/
theorem executor_batching (dist : List (String × ℚ)) (N : ℕ) (draw : ℕ → String) :
    (schedule dist N draw).execs.length
        = (schedule dist N draw).total / maxParallelProcess + 1 ∧
      ((schedule dist N draw).execs.all fun ex =>
        decide (ex.length ≤ maxParallelProcess)) = true := by
  obtain ⟨hdone, hcur, hlen, hflat⟩ := schedule_schedInv dist N draw
  constructor
  · unfold SchedState.execs
    rw [List.length_append, hlen]
    rfl
  · rw [List.all_eq_true]
    intro ex hex
    rw [decide_eq_true_eq]
    unfold SchedState.execs at hex
    rcases List.mem_append.mp hex with hx | hx
    · exact le_of_eq (hdone ex hx)
    · have hx' : ex = (schedule dist N draw).cur := by simpa using hx
      subst hx'
      rw [hcur]
      unfold maxParallelProcess
      omega

/-- C5 (counterexample): for a single strategy of weight 1.0 and
`N = 10`, ten tasks are scheduled yet two execution units are created
(the second one empty), not `ceil(10 / 10) = 1`. -/
theorem executor_count_counterexample :
    (schedule [("simple", (1 : ℚ))] 10 (fun _ => "simple")).execs.length = 2 ∧
      (10 + maxParallelProcess - 1) / maxParallelProcess = 1 := by
  have h1 : pyRoundNat ((1 : ℚ) * ((10 : ℕ) : ℚ)) = 10 := by
    rw [pyRoundNat_eq _ 10 (by norm_num [pyRound])]
    rfl
  have hrc : roundedCounts [("simple", (1 : ℚ))] 10 = [10] := by
    show [pyRoundNat ((1 : ℚ) * ((10 : ℕ) : ℚ))] = [10]
    rw [h1]
  have htot : (schedule [("simple", (1 : ℚ))] 10 (fun _ => "simple")).total = 10 := by
    rw [schedule_total_counts _ _ _ _ hrc]
    decide
  obtain ⟨_, _, hlen, _⟩ := schedule_schedInv [("simple", (1 : ℚ))] 10 (fun _ => "simple")
  constructor
  · unfold SchedState.execs
    rw [List.length_append, hlen, htot]
    rfl
  · rfl

/-- C1 (amended): the empty-result check runs before NaN filtering, so
`generate` raises the empty-result error only when the executors report
no outcome at all; when at least one task is scheduled and every task
returns the NaN sentinel, the sentinels are filtered out after the check
and an empty dataset is returned without any error. -/
theorem generate_all_nan_returns_empty (R : Type) (dist : List (String × ℚ)) (N : ℕ)
    (draw : ℕ → String) (ev : GenTask → R) (nan : R → Bool)
    (hsum : check_if_sum_is_close (dist.map Prod.snd) 1 3 = true)
    (hnan : ∀ tk, nan (ev tk) = true)
    (hpos : 0 < (schedule dist N draw).total) :
    generate dist N draw ev nan = Except.ok { test_data := [] } := by
  rw [generate_valid dist N draw ev nan hsum]
  obtain ⟨_, _, _, hflat⟩ := schedule_schedInv dist N draw
  have hne : ¬(((schedule dist N draw).execs.flatten.map ev).isEmpty = true) := by
    intro hemp
    have hnil := List.isEmpty_iff.mp hemp
    have : (schedule dist N draw).execs.flatten = [] := by
      rcases List.map_eq_nil_iff.mp hnil with h
      exact h
    rw [this] at hflat
    simp at hflat
    omega
  rw [if_neg hne]
  have hfilter : ∀ l : List GenTask,
      ((l.map ev).filter (fun r => !(nan r))) = [] := by
    intro l
    induction l with
    | nil => rfl
    | cons a l ih => simp [List.filter_cons, hnan a, ih]
  rw [hfilter]

/-- C1 (counterexample): one strategy of weight 1.0 and `N = 1` with the
single task returning the NaN sentinel: `generate` returns an empty
dataset instead of raising the empty-result error (the emptiness check
sees the one NaN outcome, which is only dropped afterwards). -/
theorem generate_all_nan_counterexample :
    generate [("simple", (1 : ℚ))] 1 (fun _ => "simple") (fun _ => (0 : ℕ))
      (fun r => r == 0) = Except.ok { test_data := [] } := by
  have hsum : check_if_sum_is_close ([("simple", (1 : ℚ))].map Prod.snd) 1 3 = true :=
    check_true_of _ _ _ (by norm_num)
  have h1 : pyRoundNat ((1 : ℚ) * ((1 : ℕ) : ℚ)) = 1 := by
    rw [pyRoundNat_eq _ 1 (by norm_num [pyRound])]
    rfl
  have hrc : roundedCounts [("simple", (1 : ℚ))] 1 = [1] := by
    show [pyRoundNat ((1 : ℚ) * ((1 : ℕ) : ℚ))] = [1]
    rw [h1]
  rw [generate_valid _ _ _ _ _ hsum, schedule_flatten_counts _ _ _ _ hrc]
  rfl

theorem generate_all_nan_returns_empty_witness :
    generate [("simple", (1 : ℚ))] 2 (fun _ => "simple") (fun _ => (0 : ℕ))
      (fun r => r == 0) = Except.ok { test_data := [] } := by
  have h1 : pyRoundNat ((1 : ℚ) * ((2 : ℕ) : ℚ)) = 2 := by
    rw [pyRoundNat_eq _ 2 (by norm_num [pyRound])]
    rfl
  have hrc : roundedCounts [("simple", (1 : ℚ))] 2 = [2] := by
    show [pyRoundNat ((1 : ℚ) * ((2 : ℕ) : ℚ))] = [2]
    rw [h1]
  refine generate_all_nan_returns_empty ℕ _ _ _ _ _
    (check_true_of _ _ _ (by norm_num)) (fun tk => rfl) ?_
  rw [schedule_total_counts _ _ _ _ hrc]
  decide

/-- C6 (amended): `N = 0` with a valid weight distribution creates zero
task assignments and invokes no strategy, but `generate` then sees an
empty outcome list and raises the empty-result error instead of
returning an empty dataset. -/
theorem generate_zero_raises (R : Type) (dist : List (String × ℚ)) (draw : ℕ → String)
    (ev : GenTask → R) (nan : R → Bool)
    (hsum : check_if_sum_is_close (dist.map Prod.snd) 1 3 = true) :
    (schedule dist 0 draw).total = 0 ∧
      generate dist 0 draw ev nan = Except.error GenError.exceptionInRunner := by
  have hterm : ∀ ep : String × ℚ, pyRoundNat (ep.2 * ((0 : ℕ) : ℚ)) = 0 := by
    intro ep
    rw [Nat.cast_zero, mul_zero, pyRoundNat_eq _ 0 (by norm_num [pyRound])]
    rfl
  have hsum0 : (roundedCounts dist 0).sum = 0 := by
    have hmap : ∀ l : List (String × ℚ),
        (l.map (fun ep => pyRoundNat (ep.2 * ((0 : ℕ) : ℚ)))).sum = 0 := by
      intro l
      induction l with
      | nil => rfl
      | cons ep rest ih => rw [List.map_cons, List.sum_cons, hterm, ih]
    exact hmap dist
  have htot : (schedule dist 0 draw).total = 0 := by
    rw [schedule_total_eq, hsum0]
    simp
  refine ⟨htot, ?_⟩
  rw [generate_valid _ _ _ _ _ hsum]
  obtain ⟨_, _, _, hflat⟩ := schedule_schedInv dist 0 draw
  have hnil : (schedule dist 0 draw).execs.flatten = [] := by
    have hlen0 : (schedule dist 0 draw).execs.flatten.length = 0 := by
      rw [hflat, htot]
    exact List.eq_nil_of_length_eq_zero hlen0
  rw [hnil]
  rfl

/-- C6 (counterexample): `N = 0` with the valid weight distribution
`{simple: 1.0}` raises `ExceptionInRunner` rather than returning an
empty dataset. -/
theorem generate_zero_counterexample :
    generate [("simple", (1 : ℚ))] 0 (fun _ => "simple") (fun _ => (0 : ℕ))
      (fun r => r == 0) = Except.error GenError.exceptionInRunner := by
  have hsum : check_if_sum_is_close ([("simple", (1 : ℚ))].map Prod.snd) 1 3 = true :=
    check_true_of _ _ _ (by norm_num)
  have h0 : pyRoundNat ((1 : ℚ) * ((0 : ℕ) : ℚ)) = 0 := by
    rw [pyRoundNat_eq _ 0 (by norm_num [pyRound])]
    rfl
  have hrc : roundedCounts [("simple", (1 : ℚ))] 0 = [0] := by
    show [pyRoundNat ((1 : ℚ) * ((0 : ℕ) : ℚ))] = [0]
    rw [h0]
  rw [generate_valid _ _ _ _ _ hsum, schedule_flatten_counts _ _ _ _ hrc]
  rfl

theorem generate_zero_raises_witness :
    (schedule [("simple", (1 : ℚ))] 0 (fun _ => "s")).total = 0 ∧
      generate [("simple", (1 : ℚ))] 0 (fun _ => "s") (fun _ => (1 : ℕ))
        (fun r => r == 0) = Except.error GenError.exceptionInRunner :=
  generate_zero_raises ℕ _ _ _ _ (check_true_of _ _ _ (by norm_num))

/-- C4: `generate` raises the configuration `ValueError` exactly when the
strategy weights sum differs from 1.0 by at least the 1e-3 tolerance
(whatever the node supply, the backfill draws and the evolve outcomes),
and the error comes from the validation stage, before any node-context
is consumed and before any task assignment is created. -/
theorem generate_config_error_iff (R : Type) (dist : List (String × ℚ)) (N : ℕ)
    (draw : ℕ → String) (ev : GenTask → R) (nan : R → Bool) :
    (generate dist N draw ev nan = Except.error GenError.configError ↔
      check_if_sum_is_close (dist.map Prod.snd) 1 3 = false) ∧
    (check_if_sum_is_close (dist.map Prod.snd) 1 3 = false →
      scheduleChecked dist N draw = Except.error GenError.configError) := by
  constructor
  · constructor
    · intro heq
      by_contra hne
      have htrue : check_if_sum_is_close (dist.map Prod.snd) 1 3 = true := by
        revert hne
        cases check_if_sum_is_close (dist.map Prod.snd) 1 3 <;> simp
      rw [generate_valid _ _ _ _ _ htrue] at heq
      by_cases hemp : ((schedule dist N draw).execs.flatten.map ev).isEmpty = true
      · rw [if_pos hemp] at heq
        simp at heq
      · rw [if_neg hemp] at heq
        simp at heq
    · intro hfalse
      exact generate_invalid dist N draw ev nan hfalse
  · intro hfalse
    unfold scheduleChecked
    rw [if_neg (by simp [hfalse])]

theorem generate_config_error_iff_witness :
    (generate [("simple", (1 : ℚ)/2)] 3 (fun _ => "simple") (fun _ => (0 : ℕ))
        (fun r => r == 0) = Except.error GenError.configError ↔
      check_if_sum_is_close ([("simple", (1 : ℚ)/2)].map Prod.snd) 1 3 = false) ∧
      scheduleChecked [("simple", (1 : ℚ)/2)] 3 (fun _ => "simple")
        = Except.error GenError.configError := by
  have h := generate_config_error_iff ℕ [("simple", (1 : ℚ)/2)] 3 (fun _ => "simple")
    (fun _ => (0 : ℕ)) (fun r => r == 0)
  have hfalse : check_if_sum_is_close ([("simple", (1 : ℚ)/2)].map Prod.snd) 1 3
      = false := by
    refine check_false_of _ _ _ ?_
    norm_num
    rw [abs_of_pos] <;> norm_num
  exact ⟨h.1, h.2 hfalse⟩

/-- C7: the single-row path with an explicit node index that is out of
range for the node store fails with the bounds (assertion) error, for
every possible evolve behaviour — so before any generation call is made. -/
theorem generate_single_bounds (Node R : Type) (nodes : List Node) (idx : ℕ)
    (randomNode : Node) (evolve : Node → Except Unit R) (is_nan : R → Bool)
    (h : nodes.length ≤ idx) :
    generate_single nodes (some idx) randomNode evolve is_nan
      = Except.error SingleError.assertionError := by
  unfold generate_single
  show (if h : idx < nodes.length then evolveStep evolve is_nan (nodes.get ⟨idx, h⟩)
    else Except.error SingleError.assertionError)
      = Except.error SingleError.assertionError
  rw [dif_neg (by omega)]

theorem generate_single_bounds_witness :
    generate_single [(5 : ℕ)] (some 3) 7 (fun _ => Except.ok (1 : ℕ))
      (fun r => r == 0) = Except.error SingleError.assertionError :=
  generate_single_bounds ℕ ℕ [5] 3 7 (fun _ => Except.ok 1) (fun r => r == 0)
    (by decide)

lemma evolveStep_ok {Node R : Type} (evolve : Node → Except Unit R) (is_nan : R → Bool)
    (node : Node) (res : Option R) (h : evolveStep evolve is_nan node = Except.ok res) :
    res = none ∨ ∃ row, res = some row ∧ is_nan row = false := by
  unfold evolveStep at h
  cases hev : evolve node with
  | error e =>
      rw [hev] at h
      exact Except.noConfusion
        (show (Except.error SingleError.evolveError : Except SingleError (Option R))
          = Except.ok res from h)
  | ok row =>
      rw [hev] at h
      have h2 : (if is_nan row = true then (Except.ok none : Except SingleError (Option R))
          else Except.ok (some row)) = Except.ok res := h
      by_cases hnan : is_nan row = true
      · rw [if_pos hnan] at h2
        left
        exact (Except.ok.inj h2).symm
      · rw [if_neg hnan] at h2
        right
        refine ⟨row, (Except.ok.inj h2).symm, ?_⟩
        revert hnan
        cases is_nan row <;> simp

/-- C8: when the single-row path completes without a raised exception,
the result is either exactly one generated row (whose NaN check came out
false) or nothing; a returned row is never the invalid sentinel. -/
theorem generate_single_no_invalid_row (Node R : Type) (nodes : List Node)
    (node_index : Option ℕ) (randomNode : Node) (evolve : Node → Except Unit R)
    (is_nan : R → Bool) (res : Option R)
    (h : generate_single nodes node_index randomNode evolve is_nan = Except.ok res) :
    res = none ∨ ∃ row, res = some row ∧ is_nan row = false := by
  unfold generate_single at h
  cases node_index with
  | none => exact evolveStep_ok evolve is_nan randomNode res h
  | some idx =>
      have h2 : (if hb : idx < nodes.length then
          evolveStep evolve is_nan (nodes.get ⟨idx, hb⟩)
        else Except.error SingleError.assertionError) = Except.ok res := h
      by_cases hlt : idx < nodes.length
      · rw [dif_pos hlt] at h2
        exact evolveStep_ok evolve is_nan _ res h2
      · rw [dif_neg hlt] at h2
        exact Except.noConfusion h2

theorem generate_single_no_invalid_row_witness :
    (some (5 : ℕ) = none ∨ ∃ row, some (5 : ℕ) = some row ∧ (row == 0) = false) :=
  generate_single_no_invalid_row ℕ ℕ [] none 7 (fun _ => Except.ok 5)
    (fun r => r == 0) (some 5) rfl

/-- The generator instance used for concrete strategy-initialization
checks: four distinct collaborator identities. -/
def tg0 : TestsetGenerator :=
  { generator_llm := 10, critic_llm := 11, embeddings := 12, docstore := 13 }

/-- An evolution whose generation model is already configured but whose
filters are not. -/
def evoPartial : Evolution :=
  { className := "simple", isComplex := false, generator_llm := some 1,
    docstore := none, question_filter := none, node_filter := none,
    evolution_filter := none }

/-- A fresh composite evolution with no collaborator configured. -/
def evoFresh : Evolution :=
  { className := "reasoning", isComplex := true, generator_llm := none,
    docstore := none, question_filter := none, node_filter := none,
    evolution_filter := none }

/-- C9 (counterexample): a strategy whose generation model is already set
but whose node filter is unset: `init_evolution` leaves the node filter
unset, refuting "every unset shared collaborator is filled" — all the
filter fills are nested under the `generator_llm is None` check. -/
theorem init_evolution_skips_counterexample :
    (init_evolution tg0 evoPartial).node_filter = none := by
  rfl

/-- C9 (amended): `init_evolution` is idempotent, and it is a complete
no-op whenever the generation model is already set (unset filters are
then left unset); only when the generation model is unset does it set the
model and fill each unset filter (the evolution filter only for composite
strategies), leaving already-set collaborators unchanged. -/
theorem init_evolution_amended (g : TestsetGenerator) (e : Evolution) :
    init_evolution g (init_evolution g e) = init_evolution g e ∧
    (e.generator_llm ≠ none → init_evolution g e = e) ∧
    (e.generator_llm = none →
      (init_evolution g e).generator_llm = some g.generator_llm ∧
      (init_evolution g e).node_filter ≠ none ∧
      (init_evolution g e).question_filter ≠ none ∧
      (e.isComplex = true → (init_evolution g e).evolution_filter ≠ none) ∧
      (∀ v, e.node_filter = some v → (init_evolution g e).node_filter = some v) ∧
      (∀ v, e.question_filter = some v →
        (init_evolution g e).question_filter = some v) ∧
      (∀ v, e.evolution_filter = some v →
        (init_evolution g e).evolution_filter = some v)) := by
  refine ⟨?_, ?_, ?_⟩
  · by_cases hgen : e.generator_llm = none
    · have hsome : (init_evolution g e).generator_llm = some g.generator_llm := by
        unfold init_evolution
        rw [if_pos hgen]
      rw [init_evolution]
      rw [if_neg (by rw [hsome]; simp)]
    · have hid : init_evolution g e = e := by
        unfold init_evolution
        rw [if_neg hgen]
      rw [hid, hid]
  · intro hne
    unfold init_evolution
    rw [if_neg hne]
  · intro hgen
    unfold init_evolution
    rw [if_pos hgen]
    refine ⟨by simp, ?_, ?_, ?_, ?_, ?_, ?_⟩
    · by_cases hnf : e.node_filter = none
      · simp [hnf]
      · simp [hnf]
    · by_cases hqf : e.question_filter = none
      · simp [hqf]
      · simp [hqf]
    · intro hcx
      by_cases hef : e.evolution_filter = none
      · simp [hcx, hef]
      · simp [hcx, hef]
    · intro v hv
      simp [hv]
    · intro v hv
      simp [hv]
    · intro v hv
      by_cases hcx : e.isComplex
      · simp [hcx, hv]
      · simp [hcx, hv]

theorem init_evolution_amended_witness :
    init_evolution tg0 (init_evolution tg0 evoFresh) = init_evolution tg0 evoFresh ∧
      (init_evolution tg0 evoFresh).node_filter ≠ none :=
  ⟨(init_evolution_amended tg0 evoFresh).1,
    ((init_evolution_amended tg0 evoFresh).2.2 rfl).2.1⟩

/-- C10: the two record views agree, they hold exactly one record per
stored row in the stored order (record `i` is row `i`'s dict with
`episode_done` set), and reading `episode_done` in any record gives
`True`. -/
theorem testdataset_record_views (R V : Type) [DecidableEq V] (ds : TestDataset R)
    (rowDict : R → List (String × V)) (vTrue : V) :
    ds.to_pandas rowDict vTrue = ds.to_dataset rowDict vTrue ∧
    (ds.to_pandas rowDict vTrue).length = ds.test_data.length ∧
    ((ds.to_pandas rowDict vTrue).zip ds.test_data).all
      (fun pr => decide (pr.1 = dictSetItem (rowDict pr.2) "episode_done" vTrue))
        = true ∧
    ((ds.to_pandas rowDict vTrue).all
      (fun rec => decide (lookupKey rec "episode_done" = some vTrue))) = true := by
  refine ⟨rfl, ?_, ?_, ?_⟩
  · unfold TestDataset.to_pandas TestDataset.to_records
    rw [List.length_map]
  · unfold TestDataset.to_pandas TestDataset.to_records
    exact zip_map_all _ ds.test_data
  · rw [List.all_eq_true]
    intro rec hrec
    rw [decide_eq_true_eq]
    unfold TestDataset.to_pandas TestDataset.to_records at hrec
    rcases List.mem_map.mp hrec with ⟨data, _, hdata⟩
    rw [← hdata]
    exact dictSetItem_lookup _ _ _

theorem testdataset_record_views_witness :
    ((TestDataset.to_pandas (⟨[3, 4]⟩ : TestDataset ℕ) (fun n => [("q", n)]) 1).all
      (fun rec => decide (lookupKey rec "episode_done" = some 1))) = true :=
  (testdataset_record_views ℕ ℕ ⟨[3, 4]⟩ (fun n => [("q", n)]) 1).2.2.2
